import Mathlib

/-!
Shallow embedding of the Deadlock-External-Map core (src/types.ts,
src/App.tsx, src/components/MapCanvas.tsx).

Numbers are modelled two ways:
* exact rationals (`ℚ`) for the idealized finite arithmetic ("within
  floating-point tolerance" properties), and
* `JsNum`, a model of JavaScript number semantics with `NaN` and the two
  infinities over exact rational finite values, for the degenerate-geometry
  paths where division by zero actually happens in the code.
-/

namespace DeadlockMap

/-! ### Data model (src/types.ts) -/

/-- `Point` from src/types.ts, generic in the number type. -/
structure PointG (α : Type) where
  x : α
  y : α
deriving DecidableEq

/-- `DrawingPath` from src/types.ts: `{ points, color, width }`. -/
structure DrawingPathG (α : Type) where
  points : List (PointG α)
  color : String
  width : ℚ
deriving DecidableEq

/-- The marker kind union `'danger' | 'move' | 'ward'` from src/types.ts. -/
inductive MarkerKind where
  | danger
  | move
  | ward
deriving DecidableEq

/-- `Marker` from src/types.ts: `{ id, x, y, type }`. -/
structure MarkerG (α : Type) where
  id : String
  x : α
  y : α
  type : MarkerKind
deriving DecidableEq

/-- `CropRegion` from src/types.ts, in source-video pixel units. -/
structure CropRegion where
  x : ℚ
  y : ℚ
  width : ℚ
  height : ℚ
deriving DecidableEq

/-- `ToolType` enum from src/types.ts. -/
inductive ToolType where
  | PEN
  | ERASER
  | MARKER
deriving DecidableEq

/-! ### Crop region editor (src/App.tsx, `handleGlobalMove`) -/

/-- The four corner resize handles of the crop box (src/App.tsx). -/
inductive Handle where
  | nw
  | ne
  | sw
  | se
deriving DecidableEq

/-- `interaction.handle.includes('e')` for the four concrete handles. -/
def Handle.hasE : Handle → Bool
  | .ne => true
  | .se => true
  | _ => false

/-- `interaction.handle.includes('w')` for the four concrete handles. -/
def Handle.hasW : Handle → Bool
  | .nw => true
  | .sw => true
  | _ => false

/-- `interaction.handle.includes('n')` for the four concrete handles. -/
def Handle.hasN : Handle → Bool
  | .nw => true
  | .ne => true
  | _ => false

/-- `interaction.handle.includes('s')` for the four concrete handles. -/
def Handle.hasS : Handle → Bool
  | .sw => true
  | .se => true
  | _ => false

/-- `const minSize = 50` in the resizing branch of `handleGlobalMove`. -/
def minSize : ℚ := 50

/-- The `interaction.type === 'moving'` branch of `handleGlobalMove`
(src/App.tsx lines 210-217): add the scaled delta to the snapshot position,
then clamp each coordinate to `[0, videoDim - size]`.  `dx`, `dy` are the
already-scaled mouse deltas `(e.clientX - startMouse.x) * scaleX` etc. -/
def moveCrop (sc : CropRegion) (dx dy videoW videoH : ℚ) : CropRegion :=
  { sc with
    x := max 0 (min (sc.x + dx) (videoW - sc.width)),
    y := max 0 (min (sc.y + dy) (videoH - sc.height)) }

/-- The `interaction.type === 'resizing'` branch of `handleGlobalMove`
(src/App.tsx lines 218-241), applied in the source order e, s, w, n.
The east/south edges clamp the new size with `Math.max(minSize, ·)`;
the west/north edges are applied only when the proposed size stays at or
above `minSize`, otherwise that edge's movement is rejected for the frame. -/
def resizeCrop (h : Handle) (sc : CropRegion) (dx dy : ℚ) : CropRegion :=
  let c := sc
  let c := if h.hasE then { c with width := max minSize (sc.width + dx) } else c
  let c := if h.hasS then { c with height := max minSize (sc.height + dy) } else c
  let c := if h.hasW then
    (if sc.width - dx ≥ minSize then { c with x := sc.x + dx, width := sc.width - dx } else c)
    else c
  let c := if h.hasN then
    (if sc.height - dy ≥ minSize then { c with y := sc.y + dy, height := sc.height - dy } else c)
    else c
  c

/-- One drag event of a gesture, with the scaled total delta since the
gesture's pointer-down: either a body drag (`moving`) or a corner drag
(`resizing` with its handle). -/
inductive Gesture where
  | move (dx dy : ℚ)
  | resize (h : Handle) (dx dy : ℚ)
deriving DecidableEq

/-- Dispatch of `handleGlobalMove` on the interaction type, starting from the
snapshot crop `c` taken at the gesture's pointer-down. -/
def applyGesture (videoW videoH : ℚ) (c : CropRegion) : Gesture → CropRegion
  | .move dx dy => moveCrop c dx dy videoW videoH
  | .resize h dx dy => resizeCrop h c dx dy

/-- A sequence of gestures, each starting from the crop produced by the
previous one (the snapshot taken at its pointer-down). -/
def applyGestures (videoW videoH : ℚ) (gs : List Gesture) (c : CropRegion) : CropRegion :=
  gs.foldl (applyGesture videoW videoH) c

/-- The crop-region invariant claimed by the spec: minimum size respected and
the region fully inside `[0, videoW] × [0, videoH]`. -/
def cropInvariant (videoW videoH : ℚ) (c : CropRegion) : Prop :=
  minSize ≤ c.width ∧ minSize ≤ c.height ∧
  0 ≤ c.x ∧ 0 ≤ c.y ∧ c.x + c.width ≤ videoW ∧ c.y + c.height ≤ videoH

instance (videoW videoH : ℚ) (c : CropRegion) : Decidable (cropInvariant videoW videoH c) := by
  unfold cropInvariant
  infer_instance

/-! ### Coordinate mapper (src/components/MapCanvas.tsx), idealized over ℚ -/

/-- The rectangle `renderRectRef.current = { x, y, w, h }` where the cropped
video is drawn on the canvas, generic in the number type. -/
structure RectG (α : Type) where
  x : α
  y : α
  w : α
  h : α
deriving DecidableEq

/-- Aspect-fit placement computed each tick by `render` (MapCanvas.tsx lines
78-99), over exact rationals.  `drawW`/`drawH` start as the canvas size; the
branch taken overwrites one dimension and centers it with the matching
offset, exactly as in the source. -/
def computeRenderRect (canvasW canvasH cropW cropH : ℚ) : RectG ℚ :=
  let cropAspect := cropW / cropH
  let canvasAspect := canvasW / canvasH
  let drawW := canvasW
  let drawH := canvasH
  let drawX : ℚ := 0
  let drawY : ℚ := 0
  if canvasAspect > cropAspect then
    let drawW := canvasH * cropAspect
    let drawX := (canvasW - drawW) / 2
    { x := drawX, y := drawY, w := drawW, h := drawH }
  else
    let drawH := canvasW / cropAspect
    let drawY := (canvasH - drawH) / 2
    { x := drawX, y := drawY, w := drawW, h := drawH }

/-- The `toScreen` helper inside `render` (MapCanvas.tsx lines 117-120):
`{ x: drawX + p.x * drawW, y: drawY + p.y * drawH }`. -/
def toScreen (p : PointG ℚ) (r : RectG ℚ) : PointG ℚ :=
  { x := r.x + p.x * r.w, y := r.y + p.y * r.h }

/-- `getNormalizedPoint` (MapCanvas.tsx lines 200-216) over exact rationals.
`mouseX`, `mouseY` are already canvas-relative (the source subtracts the
canvas bounding rectangle's corner from the client coordinates first).
Returns `none` exactly when the guard `w === 0 || h === 0` fires. -/
def getNormalizedPoint (r : RectG ℚ) (mouseX mouseY : ℚ) : Option (PointG ℚ) :=
  if r.w = 0 ∨ r.h = 0 then none
  else some { x := (mouseX - r.x) / r.w, y := (mouseY - r.y) / r.h }

/-! ### JavaScript number model

Finite values are exact rationals; `NaN` and the two infinities are explicit.
Negative zero is not modelled: in the embedded code paths every zero that can
reach a division or multiplication is `+0`. -/

/-- A JavaScript number: a finite (exact rational) value, `Infinity`,
`-Infinity`, or `NaN`. -/
inductive JsNum where
  | fin : ℚ → JsNum
  | posInf : JsNum
  | negInf : JsNum
  | nan : JsNum
deriving DecidableEq

/-- JavaScript subtraction. -/
def JsNum.sub : JsNum → JsNum → JsNum
  | nan, _ => nan
  | _, nan => nan
  | fin a, fin b => fin (a - b)
  | fin _, posInf => negInf
  | fin _, negInf => posInf
  | posInf, fin _ => posInf
  | negInf, fin _ => negInf
  | posInf, negInf => posInf
  | negInf, posInf => negInf
  | posInf, posInf => nan
  | negInf, negInf => nan

/-- JavaScript multiplication (`0 * Infinity` is `NaN`). -/
def JsNum.mul : JsNum → JsNum → JsNum
  | nan, _ => nan
  | _, nan => nan
  | fin a, fin b => fin (a * b)
  | fin a, posInf => if a = 0 then nan else if 0 < a then posInf else negInf
  | fin a, negInf => if a = 0 then nan else if 0 < a then negInf else posInf
  | posInf, fin b => if b = 0 then nan else if 0 < b then posInf else negInf
  | negInf, fin b => if b = 0 then nan else if 0 < b then negInf else posInf
  | posInf, posInf => posInf
  | posInf, negInf => negInf
  | negInf, posInf => negInf
  | negInf, negInf => posInf

/-- JavaScript division: a nonzero finite value divided by `+0` gives a signed
infinity, `0 / 0` and `Infinity / Infinity` give `NaN`, a finite value divided
by an infinity gives `0`. -/
def JsNum.div : JsNum → JsNum → JsNum
  | nan, _ => nan
  | _, nan => nan
  | fin a, fin b =>
      if b = 0 then (if a = 0 then nan else if 0 < a then posInf else negInf)
      else fin (a / b)
  | fin _, posInf => fin 0
  | fin _, negInf => fin 0
  | posInf, fin b => if 0 ≤ b then posInf else negInf
  | negInf, fin b => if 0 ≤ b then negInf else posInf
  | posInf, posInf => nan
  | posInf, negInf => nan
  | negInf, posInf => nan
  | negInf, negInf => nan

/-- JavaScript strict greater-than: any comparison with `NaN` is false. -/
def JsNum.gt : JsNum → JsNum → Bool
  | nan, _ => false
  | _, nan => false
  | fin a, fin b => decide (b < a)
  | fin _, posInf => false
  | fin _, negInf => true
  | posInf, fin _ => true
  | negInf, fin _ => false
  | posInf, posInf => false
  | posInf, negInf => true
  | negInf, posInf => false
  | negInf, negInf => false

/-- The JavaScript test `v === 0`: true only for the finite value `0`
(`NaN === 0` and `Infinity === 0` are false). -/
def JsNum.eqZero : JsNum → Bool
  | fin a => decide (a = 0)
  | _ => false

/-- The same aspect-fit placement of `render` (MapCanvas.tsx lines 78-99),
but under JavaScript number semantics, so that the divisions by zero of the
degenerate-geometry cases are modelled faithfully. -/
def computeRenderRectJs (canvasW canvasH cropW cropH : JsNum) : RectG JsNum :=
  let cropAspect := cropW.div cropH
  let canvasAspect := canvasW.div canvasH
  let drawW := canvasW
  let drawH := canvasH
  let drawX := JsNum.fin 0
  let drawY := JsNum.fin 0
  if canvasAspect.gt cropAspect then
    let drawW := canvasH.mul cropAspect
    let drawX := (canvasW.sub drawW).div (JsNum.fin 2)
    { x := drawX, y := drawY, w := drawW, h := drawH }
  else
    let drawH := canvasW.div cropAspect
    let drawY := (canvasH.sub drawH).div (JsNum.fin 2)
    { x := drawX, y := drawY, w := drawW, h := drawH }

/-- `getNormalizedPoint` (MapCanvas.tsx lines 200-216) under JavaScript
number semantics; the guard is the source's `w === 0 || h === 0`. -/
def getNormalizedPointJs (r : RectG JsNum) (mouseX mouseY : JsNum) : Option (PointG JsNum) :=
  if r.w.eqZero || r.h.eqZero then none
  else some { x := (mouseX.sub r.x).div r.w, y := (mouseY.sub r.y).div r.h }

/-! ### Input router and annotation state (src/components/MapCanvas.tsx) -/

/-- The annotation-relevant state of `MapCanvas` and its props: the
`isDrawing` flag, the in-progress `currentPath`, and the `drawings` and
`markers` collections lifted from `App`. -/
structure AnnState (α : Type) where
  isDrawing : Bool
  currentPath : List (PointG α)
  drawings : List (DrawingPathG α)
  markers : List (MarkerG α)
deriving DecidableEq

/-- The all-empty annotation state at session start. -/
def emptyAnnState (α : Type) : AnnState α :=
  { isDrawing := false, currentPath := [], drawings := [], markers := [] }

/-- `handleMouseDown` (MapCanvas.tsx lines 218-234).  `pt` is the result of
`getNormalizedPoint` for the event (the handler returns unchanged when it is
`null`); `newId` is the `Date.now().toString()` value evaluated in the marker
branch. -/
def handleMouseDown {α : Type} (tool : ToolType) (newId : String)
    (pt : Option (PointG α)) (s : AnnState α) : AnnState α :=
  match pt with
  | none => s
  | some point =>
    match tool with
    | ToolType.PEN => { s with isDrawing := true, currentPath := [point] }
    | ToolType.MARKER =>
        { s with markers :=
            s.markers ++ [{ id := newId, x := point.x, y := point.y, type := MarkerKind.danger }] }
    | ToolType.ERASER => s

/-- `handleMouseMove` (MapCanvas.tsx lines 236-242): extend the current path
only while drawing with the pen tool and the point is not `null`. -/
def handleMouseMove {α : Type} (tool : ToolType)
    (pt : Option (PointG α)) (s : AnnState α) : AnnState α :=
  if s.isDrawing = false ∨ tool ≠ ToolType.PEN then s
  else
    match pt with
    | none => s
    | some point => { s with currentPath := s.currentPath ++ [point] }

/-- `handleMouseUp` (MapCanvas.tsx lines 244-252), also used for mouse-leave:
commit the current path as a drawing when it has more than one point, always
clearing it; `selColor` is the `selectedColor` prop. -/
def handleMouseUp {α : Type} (tool : ToolType) (selColor : String)
    (s : AnnState α) : AnnState α :=
  if s.isDrawing = true ∧ tool = ToolType.PEN then
    let s1 := { s with isDrawing := false }
    let s2 :=
      if s.currentPath.length > 1 then
        { s1 with drawings :=
            s1.drawings ++ [{ points := s.currentPath, color := selColor, width := 4 }] }
      else s1
    { s2 with currentPath := [] }
  else s

/-! ### App-level state and the clear action (src/App.tsx) -/

/-- The annotation-relevant state of `App` together with the `MapCanvas`
state it hosts. -/
structure AppState where
  cropRegion : CropRegion
  activeTool : ToolType
  selectedColor : String
  ann : AnnState ℚ
deriving DecidableEq

/-- The Clear tool button's click handler (src/App.tsx lines 415-421):
`setDrawings([]); setMarkers([])`.  `currentPath` and `isDrawing` live inside
`MapCanvas` and are not touched. -/
def clearAll (s : AppState) : AppState :=
  { s with ann := { s.ann with drawings := [], markers := [] } }

/-- A session of marker placements: each click carries the `Date.now()`
value (a natural number of milliseconds) observed in `handleMouseDown`'s
marker branch and the normalized point of the click. -/
def runMarkerClicks (clicks : List (ℕ × PointG ℚ)) (s : AnnState ℚ) : AnnState ℚ :=
  clicks.foldl
    (fun st c => handleMouseDown ToolType.MARKER (toString c.1) (some c.2) st) s

/-! ### Statement vocabulary for the aspect-fit property -/

/-- The rectangle `r` lies fully inside the `sw × sh` surface. -/
def containedIn (r : RectG ℚ) (sw sh : ℚ) : Prop :=
  0 ≤ r.x ∧ 0 ≤ r.y ∧ r.x + r.w ≤ sw ∧ r.y + r.h ≤ sh

/-- The rectangle `r` touches both the left and the right edge of a surface
of width `sw`. -/
def touchesLeftRight (r : RectG ℚ) (sw : ℚ) : Prop :=
  r.x = 0 ∧ r.x + r.w = sw

/-- The rectangle `r` touches both the top and the bottom edge of a surface
of height `sh`. -/
def touchesTopBottom (r : RectG ℚ) (sh : ℚ) : Prop :=
  r.y = 0 ∧ r.y + r.h = sh

/-! ## Helper lemmas -/

/-- Any single gesture keeps both crop dimensions at or above `minSize`. -/
theorem gesture_preserves_minsize (vw vh : ℚ) (c : CropRegion) (g : Gesture)
    (hw : minSize ≤ c.width) (hh : minSize ≤ c.height) :
    minSize ≤ (applyGesture vw vh c g).width ∧ minSize ≤ (applyGesture vw vh c g).height := by
  cases g with
  | move dx dy => exact ⟨hw, hh⟩
  | resize h dx dy =>
    cases h <;>
      simp [applyGesture, resizeCrop, Handle.hasE, Handle.hasS, Handle.hasW, Handle.hasN] <;>
      split_ifs <;> (try dsimp only) <;> constructor <;>
      first | exact le_max_left _ _ | linarith

/-- Any sequence of gestures keeps both crop dimensions at or above
`minSize`. -/
theorem gestures_preserve_minsize (vw vh : ℚ) (gs : List Gesture) (c : CropRegion)
    (hw : minSize ≤ c.width) (hh : minSize ≤ c.height) :
    minSize ≤ (applyGestures vw vh gs c).width ∧
    minSize ≤ (applyGestures vw vh gs c).height := by
  induction gs generalizing c with
  | nil => exact ⟨hw, hh⟩
  | cons g gs ih =>
    obtain ⟨h1, h2⟩ := gesture_preserves_minsize vw vh c g hw hh
    exact ih (applyGesture vw vh c g) h1 h2

/-- A move gesture preserves the full crop invariant. -/
theorem move_preserves_invariant (vw vh dx dy : ℚ) (c : CropRegion)
    (h : cropInvariant vw vh c) :
    cropInvariant vw vh (moveCrop c dx dy vw vh) := by
  obtain ⟨h1, h2, h3, h4, h5, h6⟩ := h
  have hx : max 0 (min (c.x + dx) (vw - c.width)) ≤ vw - c.width :=
    max_le (by linarith) (min_le_right _ _)
  have hy : max 0 (min (c.y + dy) (vh - c.height)) ≤ vh - c.height :=
    max_le (by linarith) (min_le_right _ _)
  unfold cropInvariant moveCrop
  exact ⟨h1, h2, le_max_left _ _, le_max_left _ _, by linarith, by linarith⟩

/-- The guard `w === 0 || h === 0` of `getNormalizedPoint` makes the handler
receive `null` whenever the render rectangle has a zero dimension. -/
theorem getNormalizedPointJs_none_of_degenerate (r : RectG JsNum) (mx my : JsNum)
    (h : (r.w.eqZero || r.h.eqZero) = true) :
    getNormalizedPointJs r mx my = none := by
  unfold getNormalizedPointJs
  rw [if_pos h]

/-- Under the stated degeneracy (all of it except both crop dimensions zero
with a positive surface width), the render rectangle computed under
JavaScript semantics has a width or height equal to `0`. -/
theorem renderRectJs_degenerate (cw ch sw sh : ℚ)
    (hcw : 0 ≤ cw) (hch : 0 ≤ ch) (hsw : 0 ≤ sw) (hsh : 0 ≤ sh)
    (hdeg : cw = 0 ∨ ch = 0 ∨ sw = 0 ∨ sh = 0)
    (hnot : ¬ (cw = 0 ∧ ch = 0 ∧ 0 < sw)) :
    (((computeRenderRectJs (JsNum.fin sw) (JsNum.fin sh) (JsNum.fin cw) (JsNum.fin ch)).w.eqZero ||
      (computeRenderRectJs (JsNum.fin sw) (JsNum.fin sh) (JsNum.fin cw) (JsNum.fin ch)).h.eqZero)
      = true) := by
  rcases eq_or_lt_of_le hcw with hcw0 | hcwp
  · -- cw = 0
    rcases eq_or_lt_of_le hch with hch0 | hchp
    · -- ch = 0 as well: hnot forces sw = 0
      have hsw0 : sw = 0 := by
        by_contra hne
        exact hnot ⟨hcw0.symm, hch0.symm, lt_of_le_of_ne hsw (Ne.symm hne)⟩
      rcases eq_or_lt_of_le hsh with hsh0 | hshp
      · subst hsw0
        rw [← hcw0, ← hch0, ← hsh0]
        norm_num [computeRenderRectJs, JsNum.div, JsNum.gt, JsNum.mul, JsNum.sub, JsNum.eqZero]
      · subst hsw0
        rw [← hcw0, ← hch0]
        norm_num [computeRenderRectJs, JsNum.div, JsNum.gt, JsNum.mul, JsNum.sub, JsNum.eqZero,
          hshp.ne']
    · -- cw = 0, ch > 0
      rcases eq_or_lt_of_le hsw with hsw0 | hswp
      · rcases eq_or_lt_of_le hsh with hsh0 | hshp
        · rw [← hcw0, ← hsw0, ← hsh0]
          norm_num [computeRenderRectJs, JsNum.div, JsNum.gt, JsNum.mul, JsNum.sub, JsNum.eqZero,
            hchp.ne']
        · rw [← hcw0, ← hsw0]
          norm_num [computeRenderRectJs, JsNum.div, JsNum.gt, JsNum.mul, JsNum.sub, JsNum.eqZero,
            hchp.ne', hshp.ne']
      · rcases eq_or_lt_of_le hsh with hsh0 | hshp
        · rw [← hcw0, ← hsh0]
          norm_num [computeRenderRectJs, JsNum.div, JsNum.gt, JsNum.mul, JsNum.sub, JsNum.eqZero,
            hchp.ne', hswp, hswp.ne']
        · rw [← hcw0]
          norm_num [computeRenderRectJs, JsNum.div, JsNum.gt, JsNum.mul, JsNum.sub, JsNum.eqZero,
            hchp.ne', hshp.ne', div_pos hswp hshp]
  · -- cw > 0
    rcases eq_or_lt_of_le hch with hch0 | hchp
    · -- ch = 0, cw > 0: cropAspect = Infinity
      rcases eq_or_lt_of_le hsw with hsw0 | hswp
      · rcases eq_or_lt_of_le hsh with hsh0 | hshp
        · rw [← hch0, ← hsw0, ← hsh0]
          norm_num [computeRenderRectJs, JsNum.div, JsNum.gt, JsNum.mul, JsNum.sub, JsNum.eqZero,
            hcwp, hcwp.ne']
        · rw [← hch0, ← hsw0]
          norm_num [computeRenderRectJs, JsNum.div, JsNum.gt, JsNum.mul, JsNum.sub, JsNum.eqZero,
            hcwp, hcwp.ne', hshp.ne']
      · rcases eq_or_lt_of_le hsh with hsh0 | hshp
        · rw [← hch0, ← hsh0]
          norm_num [computeRenderRectJs, JsNum.div, JsNum.gt, JsNum.mul, JsNum.sub, JsNum.eqZero,
            hcwp, hcwp.ne', hswp, hswp.ne']
        · rw [← hch0]
          norm_num [computeRenderRectJs, JsNum.div, JsNum.gt, JsNum.mul, JsNum.sub, JsNum.eqZero,
            hcwp, hcwp.ne', hswp.ne', hshp.ne']
    · -- cw > 0, ch > 0: surface must be degenerate
      have hsurf : sw = 0 ∨ sh = 0 := by
        rcases hdeg with h | h | h | h
        · exact absurd h hcwp.ne'
        · exact absurd h hchp.ne'
        · exact Or.inl h
        · exact Or.inr h
      rcases hsurf with hsw0 | hsh0
      · rcases eq_or_lt_of_le hsh with hsh0 | hshp
        · rw [hsw0, ← hsh0]
          norm_num [computeRenderRectJs, JsNum.div, JsNum.gt, JsNum.mul, JsNum.sub, JsNum.eqZero,
            hcwp.ne', hchp.ne']
        · rw [hsw0]
          norm_num [computeRenderRectJs, JsNum.div, JsNum.gt, JsNum.mul, JsNum.sub, JsNum.eqZero,
            hcwp.ne', hchp.ne', hshp.ne', (div_pos hcwp hchp).asymm]
      · rcases eq_or_lt_of_le hsw with hsw0 | hswp
        · rw [hsh0, ← hsw0]
          norm_num [computeRenderRectJs, JsNum.div, JsNum.gt, JsNum.mul, JsNum.sub, JsNum.eqZero,
            hcwp.ne', hchp.ne']
        · rw [hsh0]
          norm_num [computeRenderRectJs, JsNum.div, JsNum.gt, JsNum.mul, JsNum.sub, JsNum.eqZero,
            hcwp.ne', hchp.ne', hswp, hswp.ne']

/-! ## Claim theorems -/

/-- C1 (counterexample): starting from the crop `{0,0,100,100}`, which
satisfies the full invariant for a 200×200 source (and 200 ≥ minimum size),
a single resize gesture on handle `se` with scaled delta `(200, 0)` yields a
crop violating `x + width ≤ sourceWidth`: the resizing branch never clamps to
the source bounds. -/
theorem crop_invariant_violated_by_resize :
    cropInvariant 200 200 ⟨0, 0, 100, 100⟩ ∧
    minSize ≤ 200 ∧
    applyGestures 200 200 [Gesture.resize Handle.se 200 0] ⟨0, 0, 100, 100⟩ =
      ⟨0, 0, 300, 100⟩ ∧
    ¬ cropInvariant 200 200
        (applyGestures 200 200 [Gesture.resize Handle.se 200 0] ⟨0, 0, 100, 100⟩) := by
  refine ⟨?_, ?_, ?_, ?_⟩ <;>
    norm_num [cropInvariant, minSize, applyGestures, applyGesture, resizeCrop,
      Handle.hasE, Handle.hasS, Handle.hasW, Handle.hasN]

/-- C1 (amended): after any sequence of move and resize gestures starting
from a crop with `width, height ≥ 50`, the result still has
`width, height ≥ 50`; and a move gesture applied to a crop satisfying the
full invariant (containment included) yields a crop satisfying it.  Resize
gestures are not clamped to the source bounds, so containment can be
violated by them. -/
theorem crop_gestures_minsize_and_move_invariant :
    (∀ (vw vh : ℚ) (gs : List Gesture) (c : CropRegion),
        minSize ≤ c.width → minSize ≤ c.height →
        minSize ≤ (applyGestures vw vh gs c).width ∧
        minSize ≤ (applyGestures vw vh gs c).height) ∧
    (∀ (vw vh dx dy : ℚ) (c : CropRegion),
        cropInvariant vw vh c →
        cropInvariant vw vh (applyGesture vw vh c (Gesture.move dx dy))) :=
  ⟨fun vw vh gs c hw hh => gestures_preserve_minsize vw vh gs c hw hh,
   fun vw vh dx dy c h => move_preserves_invariant vw vh dx dy c h⟩

/-- Witness for `crop_gestures_minsize_and_move_invariant` at concrete
inputs. -/
theorem crop_gestures_minsize_and_move_invariant_witness :
    (minSize ≤ (applyGestures 200 200 [Gesture.resize Handle.se 200 0,
        Gesture.resize Handle.nw 190 0] ⟨0, 0, 100, 100⟩).width ∧
     minSize ≤ (applyGestures 200 200 [Gesture.resize Handle.se 200 0,
        Gesture.resize Handle.nw 190 0] ⟨0, 0, 100, 100⟩).height) ∧
    cropInvariant 200 200 (applyGesture 200 200 ⟨0, 0, 100, 100⟩ (Gesture.move 500 500)) :=
  ⟨crop_gestures_minsize_and_move_invariant.1 200 200
      [Gesture.resize Handle.se 200 0, Gesture.resize Handle.nw 190 0]
      ⟨0, 0, 100, 100⟩ (by norm_num [minSize]) (by norm_num [minSize]),
   crop_gestures_minsize_and_move_invariant.2 200 200 500 500
      ⟨0, 0, 100, 100⟩ (by norm_num [cropInvariant, minSize])⟩

/-- C2 (counterexample): for the resize gesture on handle `nw` from
`{100,100,200,200}` with scaled delta `(190, 0)` and minimum 50, the
resulting width is 200, not the minimum 50: the west edge's movement is
rejected outright, not clamped; likewise the height for delta `(0, 190)`. -/
theorem resize_nw_below_min_not_clamped :
    (resizeCrop Handle.nw ⟨100, 100, 200, 200⟩ 190 0).width = 200 ∧
    (resizeCrop Handle.nw ⟨100, 100, 200, 200⟩ 190 0).width ≠ 50 ∧
    (resizeCrop Handle.nw ⟨100, 100, 200, 200⟩ 0 190).height = 200 ∧
    (resizeCrop Handle.nw ⟨100, 100, 200, 200⟩ 0 190).height ≠ 50 := by
  norm_num [resizeCrop, Handle.hasE, Handle.hasS, Handle.hasW, Handle.hasN, minSize]

/-- C2 (amended): for the `nw` gesture from `{100,100,200,200}` with a delta
of `(190, 0)` the whole west-edge movement is rejected for the frame, leaving
the crop unchanged (width 200 ≥ 50, `x` at 100); likewise `(0, 190)` on the
north edge; for every delta, `x` never moves past
`x_start + (w_start - minSize) = 250`, and the west-governed components
`x`/`width` depend only on `dx` while the north-governed components
`y`/`height` depend only on `dy`. -/
theorem resize_nw_reject_spec :
    resizeCrop Handle.nw ⟨100, 100, 200, 200⟩ 190 0 = ⟨100, 100, 200, 200⟩ ∧
    resizeCrop Handle.nw ⟨100, 100, 200, 200⟩ 0 190 = ⟨100, 100, 200, 200⟩ ∧
    (∀ dx dy : ℚ, (resizeCrop Handle.nw ⟨100, 100, 200, 200⟩ dx dy).x ≤ 100 + (200 - minSize)) ∧
    (∀ dx dy : ℚ,
      (resizeCrop Handle.nw ⟨100, 100, 200, 200⟩ dx dy).x =
        (resizeCrop Handle.nw ⟨100, 100, 200, 200⟩ dx 0).x ∧
      (resizeCrop Handle.nw ⟨100, 100, 200, 200⟩ dx dy).width =
        (resizeCrop Handle.nw ⟨100, 100, 200, 200⟩ dx 0).width ∧
      (resizeCrop Handle.nw ⟨100, 100, 200, 200⟩ dx dy).y =
        (resizeCrop Handle.nw ⟨100, 100, 200, 200⟩ 0 dy).y ∧
      (resizeCrop Handle.nw ⟨100, 100, 200, 200⟩ dx dy).height =
        (resizeCrop Handle.nw ⟨100, 100, 200, 200⟩ 0 dy).height) := by
  refine ⟨by norm_num [resizeCrop, Handle.hasE, Handle.hasS, Handle.hasW, Handle.hasN, minSize],
    by norm_num [resizeCrop, Handle.hasE, Handle.hasS, Handle.hasW, Handle.hasN, minSize], ?_, ?_⟩
  · intro dx dy
    simp [resizeCrop, Handle.hasE, Handle.hasS, Handle.hasW, Handle.hasN, minSize]
    split_ifs <;> (try dsimp only) <;> linarith
  · intro dx dy
    simp [resizeCrop, Handle.hasE, Handle.hasS, Handle.hasW, Handle.hasN, minSize]
    split_ifs <;> (try dsimp only) <;> and_intros <;> rfl

/-- C3: for every normalized point and every placement rectangle with
positive width and height, mapping through `toScreen` and back through
`getNormalizedPoint` recovers the point exactly. -/
theorem toScreen_getNormalizedPoint_roundtrip (p : PointG ℚ) (r : RectG ℚ)
    (hw : 0 < r.w) (hh : 0 < r.h) :
    getNormalizedPoint r (toScreen p r).x (toScreen p r).y = some p := by
  obtain ⟨px, py⟩ := p
  simp only [getNormalizedPoint, toScreen]
  rw [if_neg (by push_neg; exact ⟨hw.ne', hh.ne'⟩)]
  simp only [Option.some.injEq, PointG.mk.injEq]
  constructor <;> field_simp

/-- Witness for `toScreen_getNormalizedPoint_roundtrip` at the spec's
end-to-end example placement. -/
theorem toScreen_getNormalizedPoint_roundtrip_witness :
    getNormalizedPoint ⟨100, 0, 600, 600⟩
      (toScreen ⟨1/2, 1/2⟩ ⟨100, 0, 600, 600⟩).x
      (toScreen ⟨1/2, 1/2⟩ ⟨100, 0, 600, 600⟩).y = some ⟨1/2, 1/2⟩ :=
  toScreen_getNormalizedPoint_roundtrip ⟨1/2, 1/2⟩ ⟨100, 0, 600, 600⟩
    (by norm_num) (by norm_num)

/-- C4: for all positive surface and crop dimensions, the aspect-fit
placement is contained in the surface, touches both left-and-right edges or
both top-and-bottom edges, touches both pairs exactly when the aspect ratios
match, and has the crop's aspect ratio. -/
theorem aspect_fit_spec (sw sh cw ch : ℚ) (hsw : 0 < sw) (hsh : 0 < sh)
    (hcw : 0 < cw) (hch : 0 < ch) :
    containedIn (computeRenderRect sw sh cw ch) sw sh ∧
    (touchesLeftRight (computeRenderRect sw sh cw ch) sw ∨
      touchesTopBottom (computeRenderRect sw sh cw ch) sh) ∧
    ((touchesLeftRight (computeRenderRect sw sh cw ch) sw ∧
      touchesTopBottom (computeRenderRect sw sh cw ch) sh) ↔ sw / sh = cw / ch) ∧
    (computeRenderRect sw sh cw ch).w / (computeRenderRect sw sh cw ch).h = cw / ch := by
  have hA : 0 < cw / ch := div_pos hcw hch
  unfold computeRenderRect containedIn touchesLeftRight touchesTopBottom
  dsimp only
  split_ifs with hgt
  · -- pillarbox branch: canvas proportionally wider than the crop
    have h1 : cw * sh < sw * ch := (div_lt_div_iff hch hsh).mp hgt
    have hlt : sh * (cw / ch) < sw := by
      rw [mul_div_assoc', div_lt_iff hch]
      linarith
    refine ⟨⟨by linarith, le_refl 0, by linarith, by linarith⟩, Or.inr ⟨rfl, by ring⟩, ?_, ?_⟩
    · constructor
      · rintro ⟨⟨hx0, _⟩, _⟩
        exfalso
        have : sw = sh * (cw / ch) := by linarith
        rw [this] at hlt
        exact lt_irrefl _ hlt
      · intro heq
        exfalso
        rw [heq] at hgt
        exact lt_irrefl _ hgt
    · rw [mul_comm, mul_div_assoc, div_self hsh.ne', mul_one]
  · -- letterbox branch, including the exact-fit case
    have hle : sw / sh ≤ cw / ch := not_lt.mp hgt
    have h1 : sw * ch ≤ cw * sh := (div_le_div_iff hsh hch).mp hle
    have hle2 : sw / (cw / ch) ≤ sh := by
      rw [div_le_iff hA, mul_comm, div_mul_eq_mul_div, le_div_iff hch]
      linarith
    have hpos2 : 0 < sw / (cw / ch) := div_pos hsw hA
    refine ⟨⟨le_refl 0, by linarith, by linarith, by linarith⟩, Or.inl ⟨rfl, by ring⟩, ?_, ?_⟩
    · constructor
      · rintro ⟨_, hy0, _⟩
        have hH : sw / (cw / ch) = sh := by linarith
        rw [div_eq_iff hA.ne'] at hH
        rw [hH]
        rw [mul_comm, mul_div_assoc, div_self hsh.ne', mul_one]
      · intro heq
        have hH : sw / (cw / ch) = sh := by
          rw [← heq]
          rw [div_div_eq_mul_div, mul_comm, mul_div_assoc, div_self hsw.ne', mul_one]
        refine ⟨⟨rfl, by ring⟩, by linarith, by linarith⟩
    · rw [div_div_eq_mul_div, mul_comm, mul_div_assoc, div_self hsw.ne', mul_one]

/-- Witness for `aspect_fit_spec` at the spec's end-to-end example: an
800×600 surface with a 300×300 crop. -/
theorem aspect_fit_spec_witness :
    containedIn (computeRenderRect 800 600 300 300) 800 600 ∧
    (touchesLeftRight (computeRenderRect 800 600 300 300) 800 ∨
      touchesTopBottom (computeRenderRect 800 600 300 300) 600) ∧
    ((touchesLeftRight (computeRenderRect 800 600 300 300) 800 ∧
      touchesTopBottom (computeRenderRect 800 600 300 300) 600) ↔
        (800 : ℚ) / 600 = 300 / 300) ∧
    (computeRenderRect 800 600 300 300).w / (computeRenderRect 800 600 300 300).h =
      (300 : ℚ) / 300 :=
  aspect_fit_spec 800 600 300 300 (by norm_num) (by norm_num) (by norm_num) (by norm_num)

/-- C6: with the pen tool active throughout, pointer-down at `p1` followed by
one pointer-move at `p2` and pointer-up commits exactly one stroke
`{points := [p1, p2], color := selectedColor, width := 4}`; pointer-down then
immediate pointer-up commits nothing; in both cases the in-progress path is
cleared. -/
theorem pen_stroke_commit_spec (s : AnnState ℚ) (p1 p2 : PointG ℚ)
    (selColor newId : String) :
    handleMouseUp ToolType.PEN selColor
        (handleMouseMove ToolType.PEN (some p2)
          (handleMouseDown ToolType.PEN newId (some p1) s)) =
      { s with isDrawing := false, currentPath := [],
               drawings := s.drawings ++ [⟨[p1, p2], selColor, 4⟩] } ∧
    handleMouseUp ToolType.PEN selColor (handleMouseDown ToolType.PEN newId (some p1) s) =
      { s with isDrawing := false, currentPath := [] } := by
  constructor <;> simp [handleMouseDown, handleMouseMove, handleMouseUp]

/-- C7: a pointer-down with the marker tool active and a non-degenerate
placement appends exactly one marker, of kind `danger`, at the normalized
coordinates of the click; drawings, the in-progress path and the drawing
flag are untouched. -/
theorem marker_click_spec (s : AnnState ℚ) (r : RectG ℚ) (mx my : ℚ) (newId : String)
    (hw : r.w ≠ 0) (hh : r.h ≠ 0) :
    handleMouseDown ToolType.MARKER newId (getNormalizedPoint r mx my) s =
      { s with markers := s.markers ++
          [{ id := newId, x := (mx - r.x) / r.w, y := (my - r.y) / r.h,
             type := MarkerKind.danger }] } := by
  simp [getNormalizedPoint, hw, hh, handleMouseDown]

/-- Witness for `marker_click_spec`: the spec's end-to-end click at screen
point `(400, 300)` with placement `{100, 0, 600, 600}`. -/
theorem marker_click_spec_witness :
    handleMouseDown ToolType.MARKER "1000" (getNormalizedPoint ⟨100, 0, 600, 600⟩ 400 300)
      (emptyAnnState ℚ) =
      { emptyAnnState ℚ with
          markers := [{ id := "1000", x := 1/2, y := 1/2, type := MarkerKind.danger }] } := by
  rw [marker_click_spec (emptyAnnState ℚ) ⟨100, 0, 600, 600⟩ 400 300 "1000"
    (by norm_num) (by norm_num)]
  norm_num [emptyAnnState]

/-- C9: the clear action empties the committed drawings and the markers and
leaves the in-progress path, the drawing flag, the crop region, the active
tool and the selected color exactly as they were. -/
theorem clearAll_spec (s : AppState) :
    (clearAll s).ann.drawings = [] ∧
    (clearAll s).ann.markers = [] ∧
    (clearAll s).ann.currentPath = s.ann.currentPath ∧
    (clearAll s).ann.isDrawing = s.ann.isDrawing ∧
    (clearAll s).cropRegion = s.cropRegion ∧
    (clearAll s).activeTool = s.activeTool ∧
    (clearAll s).selectedColor = s.selectedColor := by
  simp [clearAll]

/-- C10: with the eraser tool active, pointer-down, pointer-move and
pointer-up (also used for pointer-leave) all leave the annotation state —
drawings, markers, the in-progress path and the drawing flag — completely
unchanged. -/
theorem eraser_events_noop {α : Type} (pt : Option (PointG α))
    (newId selColor : String) (s : AnnState α) :
    handleMouseDown ToolType.ERASER newId pt s = s ∧
    handleMouseMove ToolType.ERASER pt s = s ∧
    handleMouseUp ToolType.ERASER selColor s = s := by
  refine ⟨?_, ?_, ?_⟩
  · cases pt <;> rfl
  · simp [handleMouseMove]
  · simp [handleMouseUp]

/-- C5 (counterexample): with both crop dimensions zero and an 800×600
surface, the placement computation does not short-circuit: under JavaScript
semantics the rectangle is `{0, NaN, 800, NaN}`, the `w === 0 || h === 0`
guard does not fire (`NaN === 0` is false), and a marker-tool pointer-down
creates a marker with a `NaN` coordinate. -/
theorem degenerate_crop_creates_nan_marker :
    getNormalizedPointJs
        (computeRenderRectJs (JsNum.fin 800) (JsNum.fin 600) (JsNum.fin 0) (JsNum.fin 0))
        (JsNum.fin 400) (JsNum.fin 300) =
      some { x := JsNum.fin (1/2), y := JsNum.nan } ∧
    (handleMouseDown ToolType.MARKER "1728000000000"
        (getNormalizedPointJs
          (computeRenderRectJs (JsNum.fin 800) (JsNum.fin 600) (JsNum.fin 0) (JsNum.fin 0))
          (JsNum.fin 400) (JsNum.fin 300))
        (emptyAnnState JsNum)).markers =
      [{ id := "1728000000000", x := JsNum.fin (1/2), y := JsNum.nan,
         type := MarkerKind.danger }] := by
  norm_num [computeRenderRectJs, getNormalizedPointJs, JsNum.div, JsNum.gt, JsNum.mul,
    JsNum.sub, JsNum.eqZero, handleMouseDown, emptyAnnState]

/-- C5 (amended): when exactly one crop dimension is zero, or the surface has
a zero dimension (excluding only the both-crop-dimensions-zero case with a
positive surface width), the computed rectangle has a zero width or height,
`getNormalizedPoint` returns `null`, and pointer-down and pointer-move leave
the annotation state unchanged — no marker and no stroke point is created. -/
theorem degenerate_geometry_no_annotation (cw ch sw sh : ℚ) (mx my : JsNum)
    (hcw : 0 ≤ cw) (hch : 0 ≤ ch) (hsw : 0 ≤ sw) (hsh : 0 ≤ sh)
    (hdeg : cw = 0 ∨ ch = 0 ∨ sw = 0 ∨ sh = 0)
    (hnot : ¬ (cw = 0 ∧ ch = 0 ∧ 0 < sw)) :
    getNormalizedPointJs
        (computeRenderRectJs (JsNum.fin sw) (JsNum.fin sh) (JsNum.fin cw) (JsNum.fin ch))
        mx my = none ∧
    ∀ (tool : ToolType) (newId : String) (s : AnnState JsNum),
      handleMouseDown tool newId
          (getNormalizedPointJs
            (computeRenderRectJs (JsNum.fin sw) (JsNum.fin sh) (JsNum.fin cw) (JsNum.fin ch))
            mx my) s = s ∧
      handleMouseMove tool
          (getNormalizedPointJs
            (computeRenderRectJs (JsNum.fin sw) (JsNum.fin sh) (JsNum.fin cw) (JsNum.fin ch))
            mx my) s = s := by
  have hnone := getNormalizedPointJs_none_of_degenerate
    (computeRenderRectJs (JsNum.fin sw) (JsNum.fin sh) (JsNum.fin cw) (JsNum.fin ch)) mx my
    (renderRectJs_degenerate cw ch sw sh hcw hch hsw hsh hdeg hnot)
  refine ⟨hnone, fun tool newId s => ⟨?_, ?_⟩⟩
  · rw [hnone]
    rfl
  · rw [hnone]
    unfold handleMouseMove
    split_ifs <;> rfl

/-- Witness for `degenerate_geometry_no_annotation`: a zero-width crop on an
800×600 surface. -/
theorem degenerate_geometry_no_annotation_witness :
    getNormalizedPointJs
        (computeRenderRectJs (JsNum.fin 800) (JsNum.fin 600) (JsNum.fin 0) (JsNum.fin 300))
        (JsNum.fin 400) (JsNum.fin 300) = none ∧
    ∀ (tool : ToolType) (newId : String) (s : AnnState JsNum),
      handleMouseDown tool newId
          (getNormalizedPointJs
            (computeRenderRectJs (JsNum.fin 800) (JsNum.fin 600) (JsNum.fin 0) (JsNum.fin 300))
            (JsNum.fin 400) (JsNum.fin 300)) s = s ∧
      handleMouseMove tool
          (getNormalizedPointJs
            (computeRenderRectJs (JsNum.fin 800) (JsNum.fin 600) (JsNum.fin 0) (JsNum.fin 300))
            (JsNum.fin 400) (JsNum.fin 300)) s = s :=
  degenerate_geometry_no_annotation 0 300 800 600 (JsNum.fin 400) (JsNum.fin 300)
    (by norm_num) (by norm_num) (by norm_num) (by norm_num)
    (by norm_num) (by norm_num)

/-- `Nat.digitChar` is injective on digits below 10. -/
theorem digitChar_inj_lt (a b : ℕ) (ha : a < 10) (hb : b < 10)
    (h : Nat.digitChar a = Nat.digitChar b) : a = b := by
  interval_cases a <;> interval_cases b <;> revert h <;> decide

/-- Mapping `Nat.digitChar` over digit lists (all entries below 10) is
injective. -/
theorem map_digitChar_inj : ∀ (l1 l2 : List ℕ),
    (∀ x ∈ l1, x < 10) → (∀ x ∈ l2, x < 10) →
    l1.map Nat.digitChar = l2.map Nat.digitChar → l1 = l2 := by
  intro l1
  induction l1 with
  | nil =>
    intro l2 _ _ h
    cases l2 <;> simp_all
  | cons a l1 ih =>
    intro l2 h1 h2 h
    cases l2 with
    | nil => simp_all
    | cons b l2 =>
      simp only [List.map_cons, List.cons.injEq] at h
      have hab := digitChar_inj_lt a b (h1 a (by simp)) (h2 b (by simp)) h.1
      have hl := ih l2 (fun x hx => h1 x (by simp [hx])) (fun x hx => h2 x (by simp [hx])) h.2
      rw [hab, hl]

/-- With enough fuel, `Nat.toDigitsCore` produces the base-10 digits of a
positive number, most significant first, in front of the accumulator. -/
theorem toDigitsCore_eq_digits : ∀ (fuel n : ℕ) (ds : List Char), 0 < n → n < fuel →
    Nat.toDigitsCore 10 fuel n ds = ((Nat.digits 10 n).map Nat.digitChar).reverse ++ ds := by
  intro fuel
  induction fuel with
  | zero =>
    intro n ds hn h
    omega
  | succ fuel ih =>
    intro n ds hn hlt
    simp only [Nat.toDigitsCore]
    by_cases hdiv : n / 10 = 0
    · simp only [hdiv, if_true]
      rw [Nat.digits_def' (by norm_num : (1:ℕ) < 10) hn, hdiv]
      simp
    · simp only [hdiv, if_false]
      have hlt2 : n / 10 < n := Nat.div_lt_self hn (by norm_num)
      rw [ih (n / 10) (Nat.digitChar (n % 10) :: ds) (Nat.pos_of_ne_zero hdiv) (by omega)]
      rw [Nat.digits_def' (by norm_num : (1:ℕ) < 10) hn]
      simp

/-- `Nat.toDigits 10` of a positive number is its reversed digit-character
list. -/
theorem toDigits_pos_eq (n : ℕ) (hn : 0 < n) :
    Nat.toDigits 10 n = ((Nat.digits 10 n).map Nat.digitChar).reverse := by
  unfold Nat.toDigits
  rw [toDigitsCore_eq_digits (n + 1) n [] hn (by omega)]
  simp

/-- The decimal string representation of a natural number is injective, so
distinct `Date.now()` values yield distinct id strings. -/
theorem natRepr_injective : Function.Injective Nat.repr := by
  intro m n h
  have hdata : Nat.toDigits 10 m = Nat.toDigits 10 n := congrArg String.data h
  rcases Nat.eq_zero_or_pos m with hm | hm <;> rcases Nat.eq_zero_or_pos n with hn | hn
  · rw [hm, hn]
  · exfalso
    subst hm
    rw [toDigits_pos_eq n hn] at hdata
    have h0 : Nat.toDigits 10 0 = ['0'] := rfl
    rw [h0] at hdata
    have hmap : (Nat.digits 10 n).map Nat.digitChar = ['0'] := by
      have := congrArg List.reverse hdata
      simpa using this.symm
    rcases hdig : Nat.digits 10 n with _ | ⟨d, rest⟩
    · rw [hdig] at hmap
      simp at hmap
    · rw [hdig] at hmap
      simp only [List.map_cons] at hmap
      have hrest : rest = [] := by
        cases rest with
        | nil => rfl
        | cons c cs => simp at hmap
      have hd10 : d < 10 := Nat.digits_lt_base (by norm_num)
        (by rw [hdig]; exact List.mem_cons_self _ _)
      have hchar : Nat.digitChar d = '0' := by
        rw [hrest] at hmap
        simpa using hmap
      have hd0 : d = 0 := digitChar_inj_lt d 0 hd10 (by norm_num) hchar
      have hofd := Nat.ofDigits_digits 10 n
      rw [hdig, hrest, hd0] at hofd
      simp [Nat.ofDigits] at hofd
      omega
  · exfalso
    subst hn
    rw [toDigits_pos_eq m hm] at hdata
    have h0 : Nat.toDigits 10 0 = ['0'] := rfl
    rw [h0] at hdata
    have hmap : (Nat.digits 10 m).map Nat.digitChar = ['0'] := by
      have := congrArg List.reverse hdata
      simpa using this
    rcases hdig : Nat.digits 10 m with _ | ⟨d, rest⟩
    · rw [hdig] at hmap
      simp at hmap
    · rw [hdig] at hmap
      simp only [List.map_cons] at hmap
      have hrest : rest = [] := by
        cases rest with
        | nil => rfl
        | cons c cs => simp at hmap
      have hd10 : d < 10 := Nat.digits_lt_base (by norm_num)
        (by rw [hdig]; exact List.mem_cons_self _ _)
      have hchar : Nat.digitChar d = '0' := by
        rw [hrest] at hmap
        simpa using hmap
      have hd0 : d = 0 := digitChar_inj_lt d 0 hd10 (by norm_num) hchar
      have hofd := Nat.ofDigits_digits 10 m
      rw [hdig, hrest, hd0] at hofd
      simp [Nat.ofDigits] at hofd
      omega
  · rw [toDigits_pos_eq m hm, toDigits_pos_eq n hn] at hdata
    have hmap := List.reverse_injective hdata
    have hdig := map_digitChar_inj (Nat.digits 10 m) (Nat.digits 10 n)
      (fun x hx => Nat.digits_lt_base (by norm_num) hx)
      (fun x hx => Nat.digits_lt_base (by norm_num) hx) hmap
    have h1 := Nat.ofDigits_digits 10 m
    have h2 := Nat.ofDigits_digits 10 n
    rw [hdig] at h1
    rw [h1] at h2
    exact h2

/-- A session of marker placements appends, in order, one marker per click
whose id is the click's timestamp string. -/
theorem runMarkerClicks_markers (clicks : List (ℕ × PointG ℚ)) (s : AnnState ℚ) :
    (runMarkerClicks clicks s).markers =
      s.markers ++ clicks.map
        (fun c => { id := toString c.1, x := c.2.x, y := c.2.y,
                    type := MarkerKind.danger }) := by
  induction clicks generalizing s with
  | nil => simp [runMarkerClicks]
  | cons c cs ih =>
    simp only [runMarkerClicks, List.foldl_cons] at *
    rw [ih]
    simp [handleMouseDown]

/-- C8 (counterexample): two marker placements that observe the same
`Date.now()` value (same millisecond) produce two markers with the identical
id \"1000\", so the ids are not pairwise distinct. -/
theorem marker_ids_duplicate_same_timestamp :
    ((runMarkerClicks [(1000, { x := 0, y := 0 }), (1000, { x := 1, y := 1 })]
        (emptyAnnState ℚ)).markers.map (fun m => m.id)) = ["1000", "1000"] ∧
    ¬ ((runMarkerClicks [(1000, { x := 0, y := 0 }), (1000, { x := 1, y := 1 })]
        (emptyAnnState ℚ)).markers.map (fun m => m.id)).Nodup := by
  constructor
  · decide
  · decide

/-- C8 (amended): after any sequence of marker placements whose `Date.now()`
values are pairwise distinct, all markers have pairwise distinct ids. -/
theorem marker_ids_distinct_of_distinct_timestamps (clicks : List (ℕ × PointG ℚ))
    (h : (clicks.map Prod.fst).Nodup) :
    ((runMarkerClicks clicks (emptyAnnState ℚ)).markers.map (fun m => m.id)).Nodup := by
  rw [runMarkerClicks_markers]
  simp only [emptyAnnState, List.nil_append, List.map_map]
  have heq : ((fun m => MarkerG.id m) ∘ fun c : ℕ × PointG ℚ =>
      ({ id := toString c.1, x := c.2.x, y := c.2.y,
         type := MarkerKind.danger } : MarkerG ℚ)) = (fun c => toString c.1) := rfl
  rw [heq]
  have hmm : (clicks.map fun c => toString c.1) = (clicks.map Prod.fst).map toString := by
    rw [List.map_map]
    rfl
  rw [hmm]
  exact h.map (fun a b hab => natRepr_injective hab)

/-- Witness for `marker_ids_distinct_of_distinct_timestamps`: two clicks one
millisecond apart. -/
theorem marker_ids_distinct_of_distinct_timestamps_witness :
    ((runMarkerClicks [(1000, { x := 0, y := 0 }), (1001, { x := 1, y := 1 })]
        (emptyAnnState ℚ)).markers.map (fun m => m.id)).Nodup :=
  marker_ids_distinct_of_distinct_timestamps
    [(1000, { x := 0, y := 0 }), (1001, { x := 1, y := 1 })] (by decide)

end DeadlockMap
